import Mathlib

/-!
Verification of the Obsidian–Anki flashcard bridge.

Shallow embedding of the flashcard extraction and synchronization engine:
string normalization and identity generation (src/lib/uid.ts), markup
transformation (src/lib/wikilinks.ts), the multi-strategy document parser
(src/lib/vault-reader.ts), sync-state merging (src/lib/frontmatter-writer.ts),
the path gate of the parse/sync tools, and the reconciliation loop of
src/lib/anki-client.ts.  JavaScript strings are modelled as Lean strings
(lists of characters, ASCII fragment of the Unicode behaviour), machine
numbers as Nat with explicit reduction mod 2^32 where the SHA-256 arithmetic
overflows, and thrown exceptions as Except values.
-/

set_option maxRecDepth 8000

/-! ## Character and string helpers (model of the JS string primitives) -/

/-- Whitespace recognized by JavaScript String.prototype.trim (ASCII part). -/
def jsWs (c : Char) : Bool :=
  c = ' ' || c = '\t' || c = '\n' || c = '\r' || c = '\x0b' || c = '\x0c'

/-- Horizontal whitespace, the character class of the regex [ \t]. -/
def jsHws (c : Char) : Bool :=
  c = ' ' || c = '\t'

/-- Model of String.prototype.trim on the character list. -/
def jsTrimChars (l : List Char) : List Char :=
  (((l.dropWhile jsWs).reverse).dropWhile jsWs).reverse

/-- Model of String.prototype.trim. -/
def jsTrim (s : String) : String :=
  ⟨jsTrimChars s.data⟩

/-- Worker of the single-character string split. -/
def splitOnCharGo (sep : Char) (acc : List Char) : List Char → List String
  | [] => [⟨acc.reverse⟩]
  | c :: cs =>
    if c = sep then (⟨acc.reverse⟩ : String) :: splitOnCharGo sep [] cs
    else splitOnCharGo sep (c :: acc) cs

/-- Model of String.prototype.split with a one-character separator; empty
pieces at the boundaries are kept, exactly as in JavaScript. -/
def splitOnChar (sep : Char) (s : String) : List String :=
  splitOnCharGo sep [] s.data

/-- Model of Array.prototype.join with a separator string. -/
def joinWith (sep : String) : List String → String
  | [] => ""
  | [x] => x
  | x :: y :: xs => x ++ sep ++ joinWith sep (y :: xs)

/-- Model of .replace of every CRLF pair by a single LF (regex replace of
the two-character pattern, global, left to right). -/
def crlfToNl : List Char → List Char
  | [] => []
  | '\r' :: '\n' :: rest => '\n' :: crlfToNl rest
  | c :: rest => c :: crlfToNl rest

/-- Model of .replace of every remaining CR by LF. -/
def crToNl (l : List Char) : List Char :=
  l.map (fun c => if c = '\r' then '\n' else c)

/-- Worker for the global regex replace of a maximal run of characters
satisfying p by the single character rep.  The Bool flag records whether the
scanner is inside a run already consumed. -/
def collapseRunsGo (p : Char → Bool) (rep : Char) : Bool → List Char → List Char
  | _, [] => []
  | inRun, c :: cs =>
    if p c then
      if inRun then collapseRunsGo p rep true cs
      else rep :: collapseRunsGo p rep true cs
    else c :: collapseRunsGo p rep false cs

/-- Global regex replace of every maximal nonempty run of characters
satisfying p by the single character rep. -/
def collapseRuns (p : Char → Bool) (rep : Char) (l : List Char) : List Char :=
  collapseRunsGo p rep false l

/-- normalizeContent of src/lib/uid.ts: trim, normalize line endings,
collapse horizontal whitespace runs to one space, collapse newline runs to
one newline — in exactly the source's order. -/
def normalizeContent (text : String) : String :=
  ⟨collapseRuns (fun c => c = '\n') '\n'
    (collapseRuns jsHws ' '
      (crToNl (crlfToNl (jsTrimChars text.data))))⟩

/-- ASCII model of String.prototype.toLowerCase on one character. -/
def jsToLowerChar (c : Char) : Char :=
  if 65 ≤ c.toNat ∧ c.toNat ≤ 90 then Char.ofNat (c.toNat + 32) else c

/-- ASCII model of String.prototype.toUpperCase on one character. -/
def jsToUpperChar (c : Char) : Char :=
  if 97 ≤ c.toNat ∧ c.toNat ≤ 122 then Char.ofNat (c.toNat - 32) else c

/-- sourceFile.toLowerCase().replace of backslashes by forward slashes,
the path normalization inside generateUid. -/
def normalizePathForUid (p : String) : String :=
  ⟨(p.data.map jsToLowerChar).map (fun c => if c = '\\' then '/' else c)⟩

/-! ## SHA-256 (model of Node's createHash('sha256'), hex digest) -/

/-- Reduce mod 2^32. -/
def w32 (x : Nat) : Nat := x % 4294967296

/-- 32-bit right rotation. -/
def rotr32 (x n : Nat) : Nat :=
  w32 ((x >>> n) ||| (x <<< (32 - n)))

def shaCh (x y z : Nat) : Nat := (x &&& y) ^^^ ((x ^^^ 4294967295) &&& z)

def shaMaj (x y z : Nat) : Nat := (x &&& y) ^^^ (x &&& z) ^^^ (y &&& z)

def shaBigSigma0 (x : Nat) : Nat := rotr32 x 2 ^^^ rotr32 x 13 ^^^ rotr32 x 22

def shaBigSigma1 (x : Nat) : Nat := rotr32 x 6 ^^^ rotr32 x 11 ^^^ rotr32 x 25

def shaSmallSigma0 (x : Nat) : Nat := rotr32 x 7 ^^^ rotr32 x 18 ^^^ (x >>> 3)

def shaSmallSigma1 (x : Nat) : Nat := rotr32 x 17 ^^^ rotr32 x 19 ^^^ (x >>> 10)

/-- The 64 SHA-256 round constants. -/
def shaK : Array Nat := #[
  1116352408, 1899447441, 3049323471, 3921009573, 961987163,
  1508970993, 2453635748, 2870763221, 3624381080, 310598401,
  607225278, 1426881987, 1925078388, 2162078206, 2614888103,
  3248222580, 3835390401, 4022224774, 264347078, 604807628,
  770255983, 1249150122, 1555081692, 1996064986, 2554220882,
  2821834349, 2952996808, 3210313671, 3336571891, 3584528711,
  113926993, 338241895, 666307205, 773529912, 1294757372,
  1396182291, 1695183700, 1986661051, 2177026350, 2456956037,
  2730485921, 2820302411, 3259730800, 3345764771, 3516065817,
  3600352804, 4094571909, 275423344, 430227734, 506948616,
  659060556, 883997877, 958139571, 1322822218, 1537002063,
  1747873779, 1955562222, 2024104815, 2227730452, 2361852424,
  2428436474, 2756734187, 3204031479, 3329325298]

/-- Big-endian 8-byte encoding of a natural number. -/
def beBytes8 (n : Nat) : List Nat :=
  (List.range 8).map (fun i => (n >>> (8 * (7 - i))) % 256)

/-- SHA-256 message padding over a byte list. -/
def sha256pad (msg : List Nat) : List Nat :=
  let padZeros := (64 - (msg.length + 9) % 64) % 64
  msg ++ 0x80 :: (List.replicate padZeros 0 ++ beBytes8 (msg.length * 8))

/-- Extend the 16 block words to the 64-entry message schedule. -/
def sha256schedule (w16 : Array Nat) : Array Nat :=
  (List.range 48).foldl
    (fun acc i =>
      let t := i + 16
      acc.push (w32 (shaSmallSigma1 (acc.getD (t - 2) 0) + acc.getD (t - 7) 0 +
        shaSmallSigma0 (acc.getD (t - 15) 0) + acc.getD (t - 16) 0)))
    w16

/-- One SHA-256 compression round. -/
def sha256round (w : Array Nat) (st : Nat × Nat × Nat × Nat × Nat × Nat × Nat × Nat)
    (t : Nat) : Nat × Nat × Nat × Nat × Nat × Nat × Nat × Nat :=
  match st with
  | (a, b, c, d, e, f, g, h) =>
    let t1 := w32 (h + shaBigSigma1 e + shaCh e f g + shaK.getD t 0 + w.getD t 0)
    let t2 := w32 (shaBigSigma0 a + shaMaj a b c)
    (w32 (t1 + t2), a, b, c, w32 (d + t1), e, f, g)

/-- Process one 512-bit block into the running hash state. -/
def sha256block (h : Array Nat) (block : Array Nat) : Array Nat :=
  let w := sha256schedule block
  match (List.range 64).foldl (sha256round w)
      (h.getD 0 0, h.getD 1 0, h.getD 2 0, h.getD 3 0,
       h.getD 4 0, h.getD 5 0, h.getD 6 0, h.getD 7 0) with
  | (a, b, c, d, e, f, g, hh) =>
    #[w32 (h.getD 0 0 + a), w32 (h.getD 1 0 + b), w32 (h.getD 2 0 + c),
      w32 (h.getD 3 0 + d), w32 (h.getD 4 0 + e), w32 (h.getD 5 0 + f),
      w32 (h.getD 6 0 + g), w32 (h.getD 7 0 + hh)]

/-- SHA-256 of a byte list: the eight 32-bit result words. -/
def sha256words (msg : List Nat) : Array Nat :=
  let padded := sha256pad msg
  let nBlocks := padded.length / 64
  let blocks := (List.range nBlocks).map (fun b =>
    (List.range 16).toArray.map (fun j =>
      (padded.getD (64 * b + 4 * j) 0 <<< 24) |||
      (padded.getD (64 * b + 4 * j + 1) 0 <<< 16) |||
      (padded.getD (64 * b + 4 * j + 2) 0 <<< 8) |||
      padded.getD (64 * b + 4 * j + 3) 0))
  blocks.foldl sha256block
    #[1779033703, 3144134277, 1013904242, 2773480762,
      1359893119, 2600822924, 528734635, 1541459225]

/-- Lowercase hexadecimal digit. -/
def hexDigit (n : Nat) : Char :=
  if n < 10 then Char.ofNat (48 + n) else Char.ofNat (87 + n)

/-- 8-hex-digit rendering of a 32-bit word. -/
def hexWord (wd : Nat) : List Char :=
  (List.range 8).map (fun i => hexDigit ((wd >>> (4 * (7 - i))) % 16))

/-- UTF-8 bytes of one character. -/
def utf8CharBytes (c : Char) : List Nat :=
  let n := c.toNat
  if n < 0x80 then [n]
  else if n < 0x800 then [0xc0 + n / 64, 0x80 + n % 64]
  else if n < 0x10000 then
    [0xe0 + n / 4096, 0x80 + n / 64 % 64, 0x80 + n % 64]
  else
    [0xf0 + n / 262144, 0x80 + n / 4096 % 64, 0x80 + n / 64 % 64, 0x80 + n % 64]

/-- UTF-8 encoding of a string, as Node's update(input, 'utf8'). -/
def utf8Bytes (s : String) : List Nat :=
  s.data.flatMap utf8CharBytes

/-- Hex digest of the SHA-256 of a string, as Node's
createHash('sha256').update(input, 'utf8').digest('hex'). -/
def sha256hex (s : String) : String :=
  ⟨((sha256words (utf8Bytes s)).toList.map hexWord).flatten⟩

/-! ## generateUid (src/lib/uid.ts) -/

/-- The combined input string hashed by generateUid. -/
def mkUidInput (front back sourceFile : String) : String :=
  normalizePathForUid sourceFile ++ "::" ++
    normalizeContent front ++ "::" ++ normalizeContent back

/-- Truncation of the hex digest to the first 16 characters. -/
def uidOfInput (input : String) : String :=
  ⟨(sha256hex input).data.take 16⟩

/-- generateUid of src/lib/uid.ts: 16-hex-character truncated SHA-256 of the
normalized path and the normalized front and back joined by the literal
separator. -/
def generateUid (front back sourceFile : String) : String :=
  uidOfInput (mkUidInput front back sourceFile)

/-- generateContentHash of src/lib/uid.ts: full hex digest of the normalized
content. -/
def generateContentHash (content : String) : String :=
  sha256hex (normalizeContent content)

/-! ## Sync-state merging (src/lib/frontmatter-writer.ts) -/

/-- Model of a JavaScript Record of string keys and numeric values: an
association list in insertion order (no duplicate keys in any record built
by the source). -/
abbrev RecordMap := List (String × Nat)

/-- Model of the object spread expression of two records: the first
record's keys in order with values overridden by the second, followed by
the second record's new keys. -/
def spread2 (a b : RecordMap) : RecordMap :=
  a.map (fun kv => (kv.1, (List.lookup kv.1 b).getD kv.2)) ++
    b.filter (fun kv => (List.lookup kv.1 a).isNone)

/-- First-occurrence key list, the model of Object.keys. -/
def jsKeysGo (seen : List String) : RecordMap → List String
  | [] => []
  | kv :: rest =>
    if kv.1 ∈ seen then jsKeysGo seen rest
    else kv.1 :: jsKeysGo (kv.1 :: seen) rest

/-- Object.keys of a record. -/
def jsKeys (m : RecordMap) : List String := jsKeysGo [] m

/-- AnkiSyncState of src/lib/frontmatter-writer.ts. -/
structure AnkiSyncState where
  note_ids : RecordMap
  last_synced : String
  card_count : Nat
deriving DecidableEq, Repr

/-- The existing identity map the merge starts from, the model of
existing?.note_ids with an absent state degrading to the empty record. -/
def existingIds : Option AnkiSyncState → RecordMap
  | some st => st.note_ids
  | none => []

/-- mergeSyncState of src/lib/frontmatter-writer.ts.  The clock read
new Date().toISOString() is external and is passed in as now. -/
def mergeSyncState (existing : Option AnkiSyncState) (newNoteIds : RecordMap)
    (now : String) : AnkiSyncState :=
  { note_ids := spread2 (existingIds existing) newNoteIds
    last_synced := now
    card_count := (jsKeys (spread2 (existingIds existing) newNoteIds)).length }

/-! ## Markup transformation (src/lib/wikilinks.ts) -/

/-- escapeHtml of src/lib/wikilinks.ts on one character. -/
def escapeHtmlChar (c : Char) : List Char :=
  if c = '&' then "&amp;".data
  else if c = '<' then "&lt;".data
  else if c = '>' then "&gt;".data
  else if c = '"' then "&quot;".data
  else if c = '\'' then "&#39;".data
  else [c]

/-- escapeHtml of src/lib/wikilinks.ts. -/
def escapeHtml (s : String) : String :=
  ⟨s.data.flatMap escapeHtmlChar⟩

/-- Characters kept verbatim by encodeURIComponent. -/
def uriUnreserved (c : Char) : Bool :=
  ('A' ≤ c && c ≤ 'Z') || ('a' ≤ c && c ≤ 'z') || ('0' ≤ c && c ≤ '9') ||
    c = '-' || c = '_' || c = '.' || c = '!' || c = '~' || c = '*' ||
    c = '\'' || c = '(' || c = ')'

/-- Uppercase hexadecimal digit, as used by percent-encoding. -/
def hexDigitUpper (n : Nat) : Char :=
  if n < 10 then Char.ofNat (48 + n) else Char.ofNat (55 + n)

/-- Model of JavaScript's encodeURIComponent: unreserved characters kept,
everything else percent-encoded byte by byte over UTF-8. -/
def jsEncodeURIComponent (s : String) : String :=
  ⟨s.data.flatMap (fun c =>
    if uriUnreserved c then [c]
    else (utf8CharBytes c).flatMap
      (fun b => ['%', hexDigitUpper (b / 16), hexDigitUpper (b % 16)]))⟩

/-- Left-to-right global regex replacement: at each position try the
matcher; on a match emit the replacement and resume after the matched text
(the Nat counter skips the consumed characters), otherwise keep the
character.  Matchers return the replacement and the match length (≥ 1). -/
def replaceScanGo (matcher : List Char → Option (List Char × Nat)) :
    Nat → List Char → List Char
  | _, [] => []
  | n + 1, _ :: cs => replaceScanGo matcher n cs
  | 0, c :: cs =>
    match matcher (c :: cs) with
    | some (rep, len) => rep ++ replaceScanGo matcher (len - 1) cs
    | none => c :: replaceScanGo matcher 0 cs

/-- Global regex replacement over a string. -/
def regexReplaceAll (matcher : List Char → Option (List Char × Nat))
    (s : String) : String :=
  ⟨replaceScanGo matcher 0 s.data⟩

/-- Match of the wikilink pattern at the current position: double open
bracket, a nonempty target without bracket or pipe, an optional pipe and
nonempty display part without bracket, then double close bracket.  Returns
target, optional display and total match length. -/
def matchWikilinkAt : List Char → Option (List Char × Option (List Char) × Nat)
  | '[' :: '[' :: rest =>
    let t := rest.takeWhile (fun c => c ≠ ']' && c ≠ '|')
    if t.isEmpty then none
    else
      match rest.drop t.length with
      | ']' :: ']' :: _ => some (t, none, t.length + 4)
      | '|' :: rest2 =>
        let d := rest2.takeWhile (fun c => c ≠ ']')
        if d.isEmpty then none
        else
          match rest2.drop d.length with
          | ']' :: ']' :: _ => some (t, some d, t.length + d.length + 5)
          | _ => none
      | _ => none
  | _ => none

/-- The anchor produced for one wikilink: label precedence is explicit
display, then the text after the last hash of the target, then the target;
the href is an obsidian deep link with vault and file percent-encoded; the
label is HTML-escaped. -/
def wikilinkReplacement (vaultName : String) (t : List Char)
    (d : Option (List Char)) : List Char :=
  let label : List Char :=
    match d with
    | some dd => dd
    | none =>
      if t.contains '#' then (((splitOnChar '#' ⟨t⟩).getLastD ⟨t⟩) : String).data
      else t
  ("<a href=\"obsidian://open?vault=" ++ jsEncodeURIComponent vaultName ++
    "&file=" ++ jsEncodeURIComponent ⟨t⟩ ++ "\">" ++
    escapeHtml ⟨label⟩ ++ "</a>").data

/-- convertWikilinks of src/lib/wikilinks.ts. -/
def convertWikilinks (text vaultName : String) : String :=
  regexReplaceAll (fun l =>
    (matchWikilinkAt l).map (fun td => (wikilinkReplacement vaultName td.1 td.2.1, td.2.2)))
    text

/-- Match of the image-embed pattern: bang, double open bracket, nonempty
path without close bracket, double close bracket. -/
def matchImageAt : List Char → Option (List Char × Nat)
  | '!' :: '[' :: '[' :: rest =>
    let p := rest.takeWhile (fun c => c ≠ ']')
    if p.isEmpty then none
    else
      match rest.drop p.length with
      | ']' :: ']' :: _ => some (p, p.length + 5)
      | _ => none
  | _ => none

/-- The image element produced for one embed, src and alt both the escaped
literal path. -/
def imageReplacement (p : List Char) : List Char :=
  ("<img src=\"" ++ escapeHtml ⟨p⟩ ++ "\" alt=\"" ++ escapeHtml ⟨p⟩ ++
    "\" style=\"max-width: 100%;\">").data

/-- convertImages of src/lib/wikilinks.ts. -/
def convertImages (text vaultName vaultPath : String) : String :=
  regexReplaceAll (fun l =>
    (matchImageAt l).map (fun pl => (imageReplacement pl.1, pl.2))) text

/-- Word character of the regex class backslash-w. -/
def isWordChar (c : Char) : Bool :=
  ('A' ≤ c && c ≤ 'Z') || ('a' ≤ c && c ≤ 'z') || ('0' ≤ c && c ≤ '9') || c = '_'

/-- Match of the callout-header line pattern of convertCallouts: quote
marker, whitespace, open bracket and bang, a nonempty word-character type,
close bracket, whitespace, then the title (rest of the line).  Returns the
type and title captures. -/
def matchCalloutLine : List Char → Option (List Char × List Char)
  | '>' :: rest =>
    match rest.dropWhile jsWs with
    | '[' :: '!' :: rest2 =>
      let ty := rest2.takeWhile isWordChar
      if ty.isEmpty then none
      else
        match rest2.drop ty.length with
        | ']' :: rest3 => some (ty, rest3.dropWhile jsWs)
        | _ => none
    | _ => none
  | _ => none

/-- The styled container opening produced for one callout header. -/
def calloutReplacement (ty title : List Char) : List Char :=
  let titleHtml :=
    if title.isEmpty then ""
    else "<strong>" ++ escapeHtml ⟨title⟩ ++ "</strong><br>"
  ("<div class=\"callout callout-" ++ (⟨ty.map jsToLowerChar⟩ : String) ++
    "\">" ++ titleHtml).data

/-- convertCallouts of src/lib/wikilinks.ts: the multiline anchored pattern
matches whole lines, so each line is rewritten independently. -/
def convertCallouts (text : String) : String :=
  joinWith "\n" ((splitOnChar '\n' text).map (fun line =>
    match matchCalloutLine line.data with
    | some tyti => ⟨calloutReplacement tyti.1 tyti.2⟩
    | none => line))

/-- processObsidianSyntax of src/lib/wikilinks.ts: wikilinks, then images,
then callouts, then the external marked markdown renderer.  The marked
library is outside the repository and is abstracted as the parameter md. -/
def processObsidianSyntax (md : String → String)
    (text vaultName vaultPath : String) : String :=
  md (convertCallouts (convertImages (convertWikilinks text vaultName)
    vaultName vaultPath))

/-! ## Tool path gate (src/tools/flashcard-parse.ts, flashcard-sync.ts) -/

/-- Model of String.prototype.startsWith. -/
def strStartsWith (s pre : String) : Bool :=
  pre.data.isPrefixOf s.data

/-- POSIX model of node isAbsolute. -/
def isAbsolutePath (p : String) : Bool :=
  strStartsWith p "/"

/-- Segment normalization of a POSIX path: empty and dot segments dropped,
a dot-dot segment pops the previous one (or is dropped at the root). -/
def normSegsGo (acc : List String) : List String → List String
  | [] => acc.reverse
  | s :: rest =>
    if s = "" || s = "." then normSegsGo acc rest
    else if s = ".." then
      match acc with
      | [] => normSegsGo [] rest
      | _ :: t => normSegsGo t rest
    else normSegsGo (s :: acc) rest

/-- Resolution of an absolute POSIX path: the path the operating system
actually opens, with dot-dot segments applied. -/
def resolveAbsPath (p : String) : String :=
  "/" ++ joinWith "/" (normSegsGo [] (splitOnChar '/' p))

/-- Model of node path.join for an absolute first component: concatenation
followed by normalization. -/
def joinPath (a b : String) : String :=
  resolveAbsPath (a ++ "/" ++ b)

/-- The fullPath computed by the tools: an absolute input is used verbatim,
a relative one is joined onto the vault path. -/
def toolFullPath (vaultPath filePath : String) : String :=
  if isAbsolutePath filePath then filePath else joinPath vaultPath filePath

/-- Decision taken by the path section of handleFlashcardParse and of the
per-file loop of handleFlashcardSync. -/
inductive PathGateResult where
  | securityError
  | proceed (fullPath : String)
deriving DecidableEq, Repr

/-- The security gate of both tools: reject when the unresolved fullPath
does not start with the vault path, otherwise proceed to the existence
check and the document read on fullPath. -/
def flashcardPathGate (vaultPath filePath : String) : PathGateResult :=
  if !(strStartsWith (toolFullPath vaultPath filePath) vaultPath) then
    PathGateResult.securityError
  else PathGateResult.proceed (toolFullPath vaultPath filePath)

/-- A path lies within the root when its resolution equals the resolved
root or descends from it. -/
def pathWithinRoot (root p : String) : Bool :=
  resolveAbsPath p = resolveAbsPath root ||
    strStartsWith (resolveAbsPath p) (resolveAbsPath root ++ "/")

/-! ## Document parser (src/lib/vault-reader.ts) -/

/-- A line that is only dashes, at least three of them, after trimming:
the separator test. -/
def isSepLine (s : String) : Bool :=
  let t := jsTrim s
  decide (t.length ≥ 3) && t.data.all (fun c => c = '-')

/-- A line usable inside a front or back block: neither blank after
trimming nor a separator. -/
def sepGood (s : String) : Bool :=
  !(jsTrim s = "") && !(isSepLine s)

/-- Join of a line block, as Array.prototype.join with a newline. -/
def joinLines (ls : List String) : String :=
  joinWith "\n" ls

/-- A raw extracted card before markup processing. -/
structure RawCard where
  front : String
  back : String
  line : Nat
deriving DecidableEq, Repr

/-- Scanner of parseSeparatorFormat.  prev holds the already-consumed
lines in reverse (so its head is the line right above the current one and
its length is the current index); the Nat counter skips the lines of a
consumed back block.  On a separator that is not the first line, the front
block is the previous line plus the run of usable lines above it, the back
block is the run of usable lines below, and a card is emitted when both
trim to nonempty text. -/
def parseSepGo (startLine : Nat) (prev : List String) :
    Nat → List String → List RawCard
  | _, [] => []
  | n + 1, l :: rest => parseSepGo startLine (l :: prev) n rest
  | 0, l :: rest =>
    if isSepLine l && !prev.isEmpty then
      let frontRev :=
        match prev with
        | [] => []
        | p0 :: ps => p0 :: ps.takeWhile sepGood
      let front := jsTrim (joinLines frontRev.reverse)
      let backBlock := rest.takeWhile sepGood
      let back := jsTrim (joinLines backBlock)
      let cards := parseSepGo startLine (l :: prev) backBlock.length rest
      if front ≠ "" && back ≠ "" then
        { front := front, back := back,
          line := startLine + (prev.length - frontRev.length) } :: cards
      else cards
    else parseSepGo startLine (l :: prev) 0 rest

/-- parseSeparatorFormat of src/lib/vault-reader.ts. -/
def parseSeparatorFormat (lines : List String) (startLine : Nat) : List RawCard :=
  parseSepGo startLine [] 0 lines

/-- The case-insensitive flashcard callout header test: quote marker,
whitespace, then the literal marker. -/
def isCalloutHeader (s : String) : Bool :=
  match s.data with
  | '>' :: rest =>
    "[!flashcard]".data.isPrefixOf ((rest.dropWhile jsWs).map jsToLowerChar)
  | _ => false

/-- The case-insensitive question-marker test on a dequoted trimmed line. -/
def qTest (s : String) : Bool :=
  match s.data with
  | c1 :: c2 :: _ => (c1 = 'Q' || c1 = 'q') && c2 = ':'
  | _ => false

/-- The case-insensitive answer-marker test on a dequoted trimmed line. -/
def aTest (s : String) : Bool :=
  match s.data with
  | c1 :: c2 :: _ => (c1 = 'A' || c1 = 'a') && c2 = ':'
  | _ => false

/-- Accumulator of the callout inner loop. -/
structure CalloutAcc where
  front : String
  back : String
  inFront : Bool
  inBack : Bool
deriving Repr

/-- One quoted line of a callout block: a question marker restarts the
front, an answer marker restarts the back, any other line appends to
whichever side is active. -/
def calloutStep (acc : CalloutAcc) (rawLine : String) : CalloutAcc :=
  let line := jsTrim ⟨rawLine.data.drop 1⟩
  if qTest line then
    { front := jsTrim ⟨line.data.drop 2⟩, back := acc.back,
      inFront := true, inBack := false }
  else if aTest line then
    { front := acc.front, back := jsTrim ⟨line.data.drop 2⟩,
      inFront := false, inBack := true }
  else if acc.inFront then { acc with front := acc.front ++ "\n" ++ line }
  else if acc.inBack then { acc with back := acc.back ++ "\n" ++ line }
  else acc

/-- Scanner of parseCalloutFormat; pos is the current index and the Nat
counter skips an already-consumed quoted block. -/
def parseCalloutGo (startLine : Nat) (pos : Nat) :
    Nat → List String → List RawCard
  | _, [] => []
  | n + 1, _ :: rest => parseCalloutGo startLine (pos + 1) n rest
  | 0, l :: rest =>
    if isCalloutHeader l then
      let quoted := rest.takeWhile (fun s => strStartsWith s ">")
      let acc := quoted.foldl calloutStep ⟨"", "", false, false⟩
      let cards := parseCalloutGo startLine (pos + 1) quoted.length rest
      if acc.front ≠ "" && acc.back ≠ "" then
        { front := jsTrim acc.front, back := jsTrim acc.back,
          line := startLine + pos } :: cards
      else cards
    else parseCalloutGo startLine (pos + 1) 0 rest

/-- parseCalloutFormat of src/lib/vault-reader.ts. -/
def parseCalloutFormat (lines : List String) (startLine : Nat) : List RawCard :=
  parseCalloutGo startLine 0 0 lines

/-- Capture of the H2 heading pattern: two hashes, at least one whitespace
character, then a nonempty rest of line.  When everything after the hashes
is whitespace the backtracked capture is the final whitespace character. -/
def headingCapture (s : String) : Option String :=
  match s.data with
  | '#' :: '#' :: c :: rest =>
    if jsWs c then
      let afterWs := (c :: rest).dropWhile jsWs
      if afterWs.isEmpty then
        match rest with
        | [] => none
        | _ :: _ => some ⟨[(c :: rest).getLastD ' ']⟩
      else some ⟨afterWs⟩
    else none
  | _ => none

/-- Scanner of parseHeadingFormat; the Nat counter skips a consumed answer
block so scanning resumes at the next hash-initial line. -/
def parseHeadingGo (startLine : Nat) (pos : Nat) :
    Nat → List String → List RawCard
  | _, [] => []
  | n + 1, _ :: rest => parseHeadingGo startLine (pos + 1) n rest
  | 0, l :: rest =>
    match headingCapture l with
    | some cap =>
      let front := jsTrim cap
      let backBlock := rest.takeWhile (fun s => !(strStartsWith s "#"))
      let back := jsTrim (joinLines backBlock)
      let cards := parseHeadingGo startLine (pos + 1) backBlock.length rest
      if front ≠ "" && back ≠ "" then
        { front := front, back := back, line := startLine + pos } :: cards
      else cards
    | none => parseHeadingGo startLine (pos + 1) 0 rest

/-- parseHeadingFormat of src/lib/vault-reader.ts. -/
def parseHeadingFormat (lines : List String) (startLine : Nat) : List RawCard :=
  parseHeadingGo startLine 0 0 lines

/-- Validated frontmatter fields of a flashcard document (src/lib/types.ts,
FlashcardFrontmatterSchema); a failed validation degrades to all-absent. -/
structure FlashcardFrontmatter where
  anki_deck : Option String := none
  scope : Option String := none
  subject : Option String := none
  tags : Option (String ⊕ List String) := none

/-- The configuration fields the parser consumes (src/lib/types.ts,
ConfigSchema).  deckRoot models the deckPrefix option, the collection-name
root segment. -/
structure Config where
  vaultPath : String
  flashcardsFolder : String := "Flashcards"
  deckRoot : String := "Rina"

/-- SUBJECT_TO_DECK of src/lib/types.ts. -/
def SUBJECT_TO_DECK : List (String × String) :=
  [("MATH", "Mathematics"), ("BIOL", "Biology"), ("PHYS", "Physics"),
   ("CHEM", "Chemistry"), ("ENLA", "EnglishLanguage"),
   ("ENLI", "EnglishLiterature"), ("HIST", "History"),
   ("GEOG", "Geography"), ("COMP", "Computing"), ("SPAN", "Spanish"),
   ("LATN", "Latin"), ("CITI", "Citizenship")]

/-- The constructed-deck branch of resolveDeck: root, then scope when
present and nonempty, then the subject name looked up in the table with
fallback to the raw code, joined by the double-colon separator. -/
def resolveDeckParts (fm : FlashcardFrontmatter) (cfg : Config) : String :=
  let parts := [cfg.deckRoot]
  let parts :=
    match fm.scope with
    | some sc => if sc ≠ "" then parts ++ [sc] else parts
    | none => parts
  let parts :=
    match fm.subject with
    | some subj =>
      if subj ≠ "" then parts ++ [(List.lookup subj SUBJECT_TO_DECK).getD subj]
      else parts
    | none => parts
  joinWith "::" parts

/-- resolveDeck of src/lib/vault-reader.ts: a truthy explicit anki_deck
override wins, otherwise the constructed deck. -/
def resolveDeck (fm : FlashcardFrontmatter) (cfg : Config) : String :=
  match fm.anki_deck with
  | some d => if d = "" then resolveDeckParts fm cfg else d
  | none => resolveDeckParts fm cfg

/-- Splitter of a delimited tag string: split on runs of commas and
whitespace with empty pieces dropped, as split followed by filter(Boolean). -/
def splitTagsGo (acc : List Char) : List Char → List String
  | [] => if acc.isEmpty then [] else [⟨acc.reverse⟩]
  | c :: cs =>
    if c = ',' || jsWs c then
      if acc.isEmpty then splitTagsGo [] cs
      else (⟨acc.reverse⟩ : String) :: splitTagsGo [] cs
    else splitTagsGo (c :: acc) cs

/-- normalizeTagsArray of src/lib/vault-reader.ts. -/
def normalizeTagsArray : Option (String ⊕ List String) → List String
  | none => []
  | some (Sum.inl s) => splitTagsGo [] s.data
  | some (Sum.inr l) => l

/-- A parsed flashcard (src/lib/types.ts, FlashcardSchema). -/
structure Flashcard where
  uid : String
  front : String
  back : String
  deck : String
  tags : List String
  sourceFile : String
  sourceLine : Nat
deriving DecidableEq, Repr

/-- The card record built from one raw card: identity from the raw texts
and the relative path, front and back put through the markup pipeline. -/
def mkProcessedCard (md : String → String) (relativePath deck : String)
    (baseTags : List String) (vaultName vaultPath : String)
    (rc : RawCard) : Flashcard :=
  { uid := generateUid rc.front rc.back relativePath
    front := processObsidianSyntax md rc.front vaultName vaultPath
    back := processObsidianSyntax md rc.back vaultName vaultPath
    deck := deck
    tags := baseTags
    sourceFile := relativePath
    sourceLine := rc.line }

/-- parseFlashcardContent of src/lib/vault-reader.ts: the three strategies
tried in order on the split body, the first nonempty result deciding the
document.  The values the source derives through the filesystem are passed
in: relativePath is relative(config.vaultPath, filePath), startLine is
getContentStartLine, baseTags is normalizeTagsArray of the frontmatter
tags, md abstracts the external marked renderer. -/
def parseFlashcardContent (md : String → String) (body : String)
    (relativePath deck : String) (baseTags : List String)
    (vaultName vaultPath : String) (startLine : Nat) : List Flashcard :=
  let lines := splitOnChar '\n' body
  let sepCards := parseSeparatorFormat lines startLine
  if !sepCards.isEmpty then
    sepCards.map (mkProcessedCard md relativePath deck baseTags vaultName vaultPath)
  else
    let calloutCards := parseCalloutFormat lines startLine
    if !calloutCards.isEmpty then
      calloutCards.map (mkProcessedCard md relativePath deck baseTags vaultName vaultPath)
    else
      (parseHeadingFormat lines startLine).map
        (mkProcessedCard md relativePath deck baseTags vaultName vaultPath)

/-- Index search of the closing frontmatter fence for getContentStartLine. -/
def findCloseGo (i : Nat) : List String → Nat
  | [] => 1
  | l :: rest => if l = "---" then i + 2 else findCloseGo (i + 1) rest

/-- getContentStartLine of src/lib/vault-reader.ts, over the full document
text: one-based first body line, past a leading frontmatter fence. -/
def getContentStartLine (content : String) : Nat :=
  match splitOnChar '\n' content with
  | [] => 1
  | first :: rest => if first = "---" then findCloseGo 1 rest else 1

/-- Last path segment, the POSIX model of node basename as used on the
vault path. -/
def posixBasename (p : String) : String :=
  match ((splitOnChar '/' p).filter (fun s => s ≠ "")).getLast? with
  | some s => s
  | none => p

/-- The pure core of parseFlashcardFile of src/lib/vault-reader.ts, after
the document read and the gray-matter frontmatter split (both external):
deck resolution, vault name, then content parsing. -/
def parseFlashcardDoc (md : String → String) (fm : FlashcardFrontmatter)
    (body : String) (cfg : Config) (relativePath : String)
    (startLine : Nat) : List Flashcard :=
  let deck := resolveDeck fm cfg
  let vaultName := posixBasename cfg.vaultPath
  parseFlashcardContent md body relativePath deck
    (normalizeTagsArray fm.tags) vaultName cfg.vaultPath startLine

/-! ## Reconciliation engine (src/lib/anki-client.ts, syncCards) -/

/-- The remote-store operations syncCards performs, for the invocation
trace of the embedding. -/
inductive RemoteOp where
  | ping
  | ensureModel
  | ensureDeck (deck : String)
  | findNote (uid : String)
  | addNote (uid : String)
  | updateNote (noteId : Int) (uid : String)
deriving DecidableEq, Repr

/-- An arbitrary behaviour of the remote store over a state type: each
operation may consult and advance the state and may fail (a thrown
exception, modelled as Except.error).  ping never throws because
AnkiClient.ping catches and reports a Bool. -/
structure RemoteBehavior (σ : Type) where
  pingOk : σ → Bool × σ
  ensureModel : σ → Except String Unit × σ
  ensureDeck : String → σ → Except String Unit × σ
  findNote : String → σ → Except String (Option Int) × σ
  addNote : Flashcard → σ → Except String Int × σ
  updateNote : Int → Flashcard → σ → Except String Unit × σ

/-- Classification of one card by the reconciliation loop. -/
inductive CardOutcome where
  | created (noteId : Int)
  | updated (noteId : Int)
  | failed (err : String)
deriving DecidableEq, Repr

/-- JavaScript truthiness of the existingNoteId value: null and zero are
falsy, every other number truthy. -/
def jsTruthyNoteId : Option Int → Bool
  | some n => n ≠ 0
  | none => false

/-- The body of the per-card try block: find by identity tag, then update
the found note or add a new one; any thrown error becomes a failed
outcome.  Returns the outcome, the store state and the operations
invoked. -/
def processCard {σ : Type} (r : RemoteBehavior σ) (c : Flashcard) (s : σ) :
    CardOutcome × σ × List RemoteOp :=
  match r.findNote c.uid s with
  | (Except.error e, s1) => (CardOutcome.failed e, s1, [RemoteOp.findNote c.uid])
  | (Except.ok found, s1) =>
    if jsTruthyNoteId found then
      match r.updateNote (found.getD 0) c s1 with
      | (Except.ok _, s2) =>
        (CardOutcome.updated (found.getD 0), s2,
          [RemoteOp.findNote c.uid, RemoteOp.updateNote (found.getD 0) c.uid])
      | (Except.error e, s2) =>
        (CardOutcome.failed e, s2,
          [RemoteOp.findNote c.uid, RemoteOp.updateNote (found.getD 0) c.uid])
    else
      match r.addNote c s1 with
      | (Except.ok nid, s2) =>
        (CardOutcome.created nid, s2,
          [RemoteOp.findNote c.uid, RemoteOp.addNote c.uid])
      | (Except.error e, s2) =>
        (CardOutcome.failed e, s2,
          [RemoteOp.findNote c.uid, RemoteOp.addNote c.uid])

/-- Assignment into a JavaScript record of note ids, overwriting in place
or appending. -/
def jsAssign (m : List (String × Int)) (k : String) (v : Int) :
    List (String × Int) :=
  if (List.lookup k m).isSome then
    m.map (fun kv => if kv.1 = k then (k, v) else kv)
  else m ++ [(k, v)]

/-- Appending a uid under its source file in the fileToUids record. -/
def addFileUid (m : List (String × List String)) (file uid : String) :
    List (String × List String) :=
  if (List.lookup file m).isSome then
    m.map (fun kv => if kv.1 = file then (kv.1, kv.2 ++ [uid]) else kv)
  else m ++ [(file, [uid])]

/-- The result record of syncCards (SyncResultSchema of src/lib/types.ts
plus the noteIds and fileToUids maps the source adds; the wall-clock
duration field is external and not modelled). -/
structure SyncResult where
  created : Nat
  updated : Nat
  unchanged : Nat
  errors : List (String × String)
  noteIds : List (String × Int)
  fileToUids : List (String × List String)
deriving DecidableEq, Repr

/-- The zero-initialized result record. -/
def emptySyncResult : SyncResult :=
  { created := 0, updated := 0, unchanged := 0, errors := [],
    noteIds := [], fileToUids := [] }

/-- Fold of one card outcome into the accumulated result, exactly the
statements of the per-card loop body. -/
def applyOutcome (acc : SyncResult) (c : Flashcard) :
    CardOutcome → SyncResult
  | CardOutcome.created nid =>
    { acc with
      created := acc.created + 1
      noteIds := jsAssign acc.noteIds c.uid nid
      fileToUids := addFileUid acc.fileToUids c.sourceFile c.uid }
  | CardOutcome.updated nid =>
    { acc with
      updated := acc.updated + 1
      noteIds := jsAssign acc.noteIds c.uid nid
      fileToUids := addFileUid acc.fileToUids c.sourceFile c.uid }
  | CardOutcome.failed e =>
    { acc with errors := acc.errors ++ [(c.uid, e)] }

/-- The per-card loop of syncCards: strictly in input order, one card at a
time, each failure isolated to its card. -/
def syncLoop {σ : Type} (r : RemoteBehavior σ) :
    List Flashcard → σ → SyncResult → SyncResult × σ × List RemoteOp
  | [], s, acc => (acc, s, [])
  | c :: rest, s, acc =>
    let pc := processCard r c s
    let next := syncLoop r rest pc.2.1 (applyOutcome acc c pc.1)
    (next.1, next.2.1, pc.2.2 ++ next.2.2)

/-- First-occurrence deduplication, the model of iterating a Set built
from a list. -/
def dedupFirstGo (seen : List String) : List String → List String
  | [] => []
  | x :: xs =>
    if x ∈ seen then dedupFirstGo seen xs else x :: dedupFirstGo (x :: seen) xs

/-- The deck-ensuring loop of syncCards over the distinct decks; a thrown
error aborts it (it is outside the per-card try). -/
def ensureDecks {σ : Type} (r : RemoteBehavior σ) :
    List String → σ → Except String Unit × σ × List RemoteOp
  | [], s => (Except.ok (), s, [])
  | d :: rest, s =>
    match r.ensureDeck d s with
    | (Except.ok _, s1) =>
      let next := ensureDecks r rest s1
      (next.1, next.2.1, RemoteOp.ensureDeck d :: next.2.2)
    | (Except.error e, s1) => (Except.error e, s1, [RemoteOp.ensureDeck d])

/-- AnkiClient.syncCards of src/lib/anki-client.ts: ensure the note model,
ensure every distinct deck, then classify each card; a failure of the
setup steps rejects the whole call, per-card failures are collected. -/
def syncCards {σ : Type} (r : RemoteBehavior σ) (cards : List Flashcard)
    (s : σ) : Except String SyncResult × σ × List RemoteOp :=
  match r.ensureModel s with
  | (Except.error e, s1) => (Except.error e, s1, [RemoteOp.ensureModel])
  | (Except.ok _, s1) =>
    let ed := ensureDecks r (dedupFirstGo [] (cards.map (fun c => c.deck))) s1
    match ed.1 with
    | Except.error e => (Except.error e, ed.2.1, RemoteOp.ensureModel :: ed.2.2)
    | Except.ok _ =>
      let sl := syncLoop r cards ed.2.1 emptySyncResult
      (Except.ok sl.1, sl.2.1, RemoteOp.ensureModel :: (ed.2.2 ++ sl.2.2))

/-- The remote phase of handleFlashcardSync (src/tools/flashcard-sync.ts,
non-dry-run, after parsing): ping first and return the structured
connection error without any further remote call when it fails, otherwise
run syncCards. -/
def syncRemotePhase {σ : Type} (r : RemoteBehavior σ) (cards : List Flashcard)
    (s : σ) : Except String SyncResult × σ × List RemoteOp :=
  match r.pingOk s with
  | (false, s1) => (Except.error "Anki not connected", s1, [RemoteOp.ping])
  | (true, s1) =>
    let sc := syncCards r cards s1
    (sc.1, sc.2.1, RemoteOp.ping :: sc.2.2)

/-! ## Auxiliary definitions used by the verification statements -/

/-- CRLF expansion of one character: the newline becomes a carriage-return
newline pair (used to state line-ending invariance of the identity). -/
def toCRLFChar (c : Char) : List Char :=
  if c = '\n' then ['\r', '\n'] else [c]

/-- The CRLF-styled variant of a text: every newline replaced by a
carriage-return newline pair. -/
def toCRLF (s : String) : String :=
  ⟨s.data.flatMap toCRLFChar⟩

/-- Reversed CRLF expansion, the mirror image of toCRLFChar. -/
def crlfRevChar (c : Char) : List Char :=
  if c = '\n' then ['\n', '\r'] else [c]

/-- No two adjacent characters of the list satisfy p. -/
def noTwoAdjacent (p : Char → Bool) : List Char → Prop
  | c1 :: c2 :: rest => ¬(p c1 = true ∧ p c2 = true) ∧ noTwoAdjacent p (c2 :: rest)
  | _ => True

/-- Swap of forward slashes to backslashes (used to state slash-style
invariance of the identity). -/
def slashToBackslash (s : String) : String :=
  ⟨s.data.map (fun c => if c = '/' then '\\' else c)⟩

/-- Uppercased variant of a path (used to state case invariance of the
identity). -/
def jsToUpper (s : String) : String :=
  ⟨s.data.map jsToUpperChar⟩

/-- The document of the exclusivity scenario: separator, callout and
heading markers all present in one body. -/
def tripleDoc : String :=
  "Q1\n---\nA1\n\n> [!flashcard]\n> Q: q2\n> A: a2\n\n## H3q\nbody"

/-- A remote behaviour whose connectivity check fails (witness fixture). -/
def offlineRemote : RemoteBehavior Unit :=
  { pingOk := fun s => (false, s)
    ensureModel := fun s => (Except.ok (), s)
    ensureDeck := fun _ s => (Except.ok (), s)
    findNote := fun _ s => (Except.ok none, s)
    addNote := fun _ s => (Except.ok 7, s)
    updateNote := fun _ _ s => (Except.ok (), s) }

/-- A remote behaviour on which every operation succeeds and every card is
new (witness fixture). -/
def okRemote : RemoteBehavior Unit :=
  { pingOk := fun s => (true, s)
    ensureModel := fun s => (Except.ok (), s)
    ensureDeck := fun _ s => (Except.ok (), s)
    findNote := fun _ s => (Except.ok none, s)
    addNote := fun _ s => (Except.ok 7, s)
    updateNote := fun _ _ s => (Except.ok (), s) }

/-- A remote behaviour that throws on the identity query of the card with
identity bad (witness fixture). -/
def failingRemote : RemoteBehavior Unit :=
  { pingOk := fun s => (true, s)
    ensureModel := fun s => (Except.ok (), s)
    ensureDeck := fun _ s => (Except.ok (), s)
    findNote := fun uid s =>
      (if uid = "bad" then Except.error "boom" else Except.ok none, s)
    addNote := fun _ s => (Except.ok 7, s)
    updateNote := fun _ _ s => (Except.ok (), s) }

/-- A minimal card with the given identity (witness fixture). -/
def sampleCard (uid : String) : Flashcard :=
  { uid := uid, front := "f", back := "b", deck := "D", tags := [],
    sourceFile := "S.md", sourceLine := 1 }

/-- The result syncCards computes on okRemote for two fresh cards
(witness fixture). -/
def twoCreatedResult : SyncResult :=
  { created := 2, updated := 0, unchanged := 0, errors := [],
    noteIds := [("u1", 7), ("u2", 7)], fileToUids := [("S.md", ["u1", "u2"])] }

/-! ## Theorems -/

/-- The SHA-256 embedding reproduces the standard test vector for the
empty message. -/
theorem sha256hex_empty :
    sha256hex "" =
      "e3b0c44298fc1c149afbf4c8996fb92427ae41e4649b934ca495991b7852b855" := by
  decide

/-- The SHA-256 embedding reproduces the standard test vector for the
three-byte message abc. -/
theorem sha256hex_abc :
    sha256hex "abc" =
      "ba7816bf8f01cfea414140de5dae2223b00361a396177a9cb410ff61f20015ad" := by
  decide

/-- C1: the security gate of flashcard_parse and flashcard_sync accepts
the absolute input path /vault/../secret/evil.md because the raw string
starts with the vault root, although the path the read would open resolves
to /secret/evil.md, outside the root: the tools proceed to the document
read instead of returning the security error the claim requires. -/
theorem C1_pathGate_acceptsEscapingPath :
    flashcardPathGate "/vault" "/vault/../secret/evil.md" =
      PathGateResult.proceed "/vault/../secret/evil.md" ∧
    resolveAbsPath "/vault/../secret/evil.md" = "/secret/evil.md" ∧
    pathWithinRoot "/vault" "/vault/../secret/evil.md" = false := by
  decide

/-- Characters of a collapsed-runs output: the replacement character or a
kept input character not satisfying the run predicate. -/
theorem mem_collapseRunsGo (p : Char → Bool) (rep : Char) :
    ∀ (l : List Char) (b : Bool) (c : Char), c ∈ collapseRunsGo p rep b l →
      c = rep ∨ (c ∈ l ∧ p c = false) := by
  intro l
  induction l with
  | nil => intro b c h; simp [collapseRunsGo] at h
  | cons c0 cs ih =>
    intro b c h
    by_cases hp : p c0
    · cases b with
      | true =>
        simp only [collapseRunsGo, hp, if_true] at h
        rcases ih true c h with h1 | ⟨h2, h3⟩
        · exact Or.inl h1
        · exact Or.inr ⟨List.mem_cons_of_mem _ h2, h3⟩
      | false =>
        simp only [collapseRunsGo, hp, if_true] at h
        rcases List.mem_cons.mp h with h1 | h1
        · exact Or.inl h1
        · rcases ih true c h1 with h2 | ⟨h2, h3⟩
          · exact Or.inl h2
          · exact Or.inr ⟨List.mem_cons_of_mem _ h2, h3⟩
    · simp only [collapseRunsGo, hp, if_false, Bool.false_eq_true] at h
      rcases List.mem_cons.mp h with h1 | h1
      · subst h1
        exact Or.inr ⟨List.mem_cons_self _ _, by simpa using hp⟩
      · rcases ih false c h1 with h2 | ⟨h2, h3⟩
        · exact Or.inl h2
        · exact Or.inr ⟨List.mem_cons_of_mem _ h2, h3⟩

/-- A collapsed-runs output produced in skipping state starts with a
character outside the run predicate. -/
theorem collapseRunsGo_true_head (p : Char → Bool) (rep : Char) :
    ∀ (l : List Char) (c : Char) (rest : List Char),
      collapseRunsGo p rep true l = c :: rest → p c = false := by
  intro l
  induction l with
  | nil => intro c rest h; simp [collapseRunsGo] at h
  | cons c0 cs ih =>
    intro c rest h
    by_cases hp : p c0
    · simp only [collapseRunsGo, hp, if_true] at h
      exact ih c rest h
    · simp only [collapseRunsGo, hp, if_false, Bool.false_eq_true] at h
      obtain ⟨h1, -⟩ := List.cons_eq_cons.mp h
      rw [← h1]
      simpa using hp

/-- A collapsed-runs output never holds two adjacent characters of the run
predicate. -/
theorem noTwoAdjacent_collapseRunsGo (p : Char → Bool) (rep : Char) :
    ∀ (l : List Char) (b : Bool), noTwoAdjacent p (collapseRunsGo p rep b l) := by
  intro l
  induction l with
  | nil => intro b; simp [collapseRunsGo, noTwoAdjacent]
  | cons c0 cs ih =>
    intro b
    by_cases hp : p c0
    · cases b with
      | true => simpa only [collapseRunsGo, hp, if_true] using ih true
      | false =>
        simp only [collapseRunsGo, hp, if_true]
        rcases hX : collapseRunsGo p rep true cs with _ | ⟨c2, rest⟩
        · simp [noTwoAdjacent]
        · have h2 := collapseRunsGo_true_head p rep cs c2 rest hX
          have h3 := ih true
          rw [hX] at h3
          exact ⟨fun hc => by rw [h2] at hc; exact absurd hc.2 (by simp), h3⟩
    · simp only [collapseRunsGo, hp, if_false, Bool.false_eq_true]
      rcases hX : collapseRunsGo p rep false cs with _ | ⟨c2, rest⟩
      · simp [noTwoAdjacent]
      · have h3 := ih false
        rw [hX] at h3
        exact ⟨fun hc => by rw [hc.1] at hp; simp at hp, h3⟩

/-- The trim model drops a leading whitespace character. -/
theorem jsTrimChars_cons_ws (c : Char) (h : jsWs c = true) (l : List Char) :
    jsTrimChars (c :: l) = jsTrimChars l := by
  unfold jsTrimChars
  simp [List.dropWhile_cons, h]

/-- The trim model drops a trailing whitespace character. -/
theorem jsTrimChars_append_ws (w : Char) (h : jsWs w = true) (l : List Char) :
    jsTrimChars (l ++ [w]) = jsTrimChars l := by
  unfold jsTrimChars
  rw [List.dropWhile_append]
  by_cases he : (l.dropWhile jsWs).isEmpty
  · rw [List.isEmpty_iff] at he
    simp [he, List.dropWhile_cons, h]
  · simp [he, List.reverse_append, List.dropWhile_cons, h]

/-- C5 (counterexample): the normalization does not keep one blank line
between two paragraphs — the run of two newlines collapses to a single
newline, so the paragraphs end up on adjacent lines. -/
theorem C5_blankLineNotPreserved :
    normalizeContent "A\n\nB" = "A\nB" ∧
    normalizeContent "A\n\nB" ≠ "A\n\nB" := by
  decide

/-- C5 (amended): normalizeContent trims the text (leading and trailing
whitespace is irrelevant), unifies line endings (no carriage return
remains), collapses horizontal whitespace runs to one space (no tab
remains), and collapses every newline run to a single newline (no two
adjacent newlines remain — in particular a blank line between paragraphs
is removed, as the concrete instances show). -/
theorem C5_amended_normalization :
    (∀ s : String, normalizeContent (" " ++ s) = normalizeContent s) ∧
    (∀ s : String, normalizeContent (s ++ " ") = normalizeContent s) ∧
    (∀ s : String, '\r' ∉ (normalizeContent s).data) ∧
    (∀ s : String, '\t' ∉ (normalizeContent s).data) ∧
    (∀ s : String, noTwoAdjacent (fun c => c = '\n') (normalizeContent s).data) ∧
    normalizeContent "a  \t b" = "a b" ∧
    normalizeContent "A\r\nB\rC" = "A\nB\nC" ∧
    normalizeContent "P1\n\nP2" = "P1\nP2" := by
  refine ⟨fun s => ?_, fun s => ?_, fun s => ?_, fun s => ?_, fun s => ?_,
    by decide, by decide, by decide⟩
  · unfold normalizeContent
    have : (" " ++ s).data = ' ' :: s.data := by simp
    rw [this, jsTrimChars_cons_ws ' ' (by decide)]
  · unfold normalizeContent
    have : (s ++ " ").data = s.data ++ [' '] := by simp
    rw [this, jsTrimChars_append_ws ' ' (by decide)]
  · intro hmem
    unfold normalizeContent at hmem
    simp only [collapseRuns] at hmem
    rcases mem_collapseRunsGo _ _ _ _ _ hmem with h1 | ⟨h2, -⟩
    · exact absurd h1 (by decide)
    · rcases mem_collapseRunsGo _ _ _ _ _ h2 with h3 | ⟨h4, -⟩
      · exact absurd h3 (by decide)
      · unfold crToNl at h4
        rcases List.mem_map.mp h4 with ⟨a, -, ha⟩
        by_cases hra : a = '\r'
        · rw [if_pos hra] at ha
          exact absurd ha (by decide)
        · rw [if_neg hra] at ha
          exact hra ha
  · intro hmem
    unfold normalizeContent at hmem
    simp only [collapseRuns] at hmem
    rcases mem_collapseRunsGo _ _ _ _ _ hmem with h1 | ⟨h2, -⟩
    · exact absurd h1 (by decide)
    · rcases mem_collapseRunsGo _ _ _ _ _ h2 with h3 | ⟨-, h4⟩
      · exact absurd h3 (by decide)
      · exact absurd h4 (by decide)
  · unfold normalizeContent
    exact noTwoAdjacent_collapseRunsGo _ _ _ _

/-- C6: on an image embed the pipeline's first stage, the wikilink
converter, already consumes the double-bracketed path, so the full
transformation hands the markdown stage a bang followed by an anchor — no
image element is ever produced (no img opening appears in the text given
to the renderer), although convertImages alone, had it run first, would
have produced exactly the claimed element. -/
theorem C6_imageEmbed_becomesAnchorNotImg :
    (∀ md : String → String,
      processObsidianSyntax md "![[diagram.png]]" "Vault" "/v" =
        md "!<a href=\"obsidian://open?vault=Vault&file=diagram.png\">diagram.png</a>") ∧
    ¬ ("<img".data <:+:
        (convertCallouts (convertImages (convertWikilinks "![[diagram.png]]" "Vault")
          "Vault" "/v")).data) ∧
    convertImages "![[diagram.png]]" "Vault" "/v" =
      "<img src=\"diagram.png\" alt=\"diagram.png\" style=\"max-width: 100%;\">" := by
  refine ⟨fun md => ?_, by decide, by decide⟩
  unfold processObsidianSyntax
  exact congrArg md (by decide)

/-- C2 (counterexample): the spec's example body, with a blank line on
each side of the separator, yields no card at all — the back block stops
at the blank line right after the separator, so the back is empty and the
card is not emitted. -/
theorem C2_specExampleBody_yieldsNoCards :
    parseFlashcardDoc id
      { anki_deck := none, scope := none, subject := some "BIOL", tags := none }
      "Question\n\n---\n\nAnswer"
      { vaultPath := "/home/user/Vault", flashcardsFolder := "Flashcards",
        deckRoot := "Rina" }
      "Flashcards/bio.md" 5 = [] := by
  decide

/-- C2 (amended): with the blank line after the separator removed the
example behaves as described — one card, collection the root prefix Rina
joined to Biology, front the rendering of Question and back the rendering
of Answer, for every markdown renderer md. -/
theorem C2_amended_separatorExample (md : String → String) :
    parseFlashcardDoc md
      { anki_deck := none, scope := none, subject := some "BIOL", tags := none }
      "Question\n\n---\nAnswer"
      { vaultPath := "/home/user/Vault", flashcardsFolder := "Flashcards",
        deckRoot := "Rina" }
      "Flashcards/bio.md" 5 =
    [{ uid := generateUid "Question" "Answer" "Flashcards/bio.md"
       front := md "Question"
       back := md "Answer"
       deck := "Rina::Biology"
       tags := []
       sourceFile := "Flashcards/bio.md"
       sourceLine := 5 }] := by
  have hsep : parseSeparatorFormat (splitOnChar '\n' "Question\n\n---\nAnswer") 5 =
      [{ front := "Question", back := "Answer", line := 5 }] := by decide
  have hq : convertCallouts (convertImages (convertWikilinks "Question" "Vault")
      "Vault" "/home/user/Vault") = "Question" := by decide
  have ha : convertCallouts (convertImages (convertWikilinks "Answer" "Vault")
      "Vault" "/home/user/Vault") = "Answer" := by decide
  have hdeck : resolveDeck
      { anki_deck := none, scope := none, subject := some "BIOL", tags := none }
      { vaultPath := "/home/user/Vault", flashcardsFolder := "Flashcards",
        deckRoot := "Rina" } = "Rina::Biology" := by decide
  have hvn : posixBasename "/home/user/Vault" = "Vault" := by decide
  simp [parseFlashcardDoc, parseFlashcardContent, hsep, hdeck, hvn,
    mkProcessedCard, processObsidianSyntax, hq, ha, normalizeTagsArray]

/-- C3: for every document body the parser's three strategies are tried in
the fixed order separator, callout, heading, and the first that yields a
card decides the whole document; on a document holding separator, callout
and heading markers at once — each strategy would yield a card on its own
— only the separator cards are returned. -/
theorem C3_strategyPriority :
    (∀ (md : String → String) (body relPath deck : String) (baseTags : List String)
        (vn vp : String) (sl : Nat),
      (parseSeparatorFormat (splitOnChar '\n' body) sl ≠ [] →
        parseFlashcardContent md body relPath deck baseTags vn vp sl =
          (parseSeparatorFormat (splitOnChar '\n' body) sl).map
            (mkProcessedCard md relPath deck baseTags vn vp)) ∧
      (parseSeparatorFormat (splitOnChar '\n' body) sl = [] →
        parseCalloutFormat (splitOnChar '\n' body) sl ≠ [] →
        parseFlashcardContent md body relPath deck baseTags vn vp sl =
          (parseCalloutFormat (splitOnChar '\n' body) sl).map
            (mkProcessedCard md relPath deck baseTags vn vp)) ∧
      (parseSeparatorFormat (splitOnChar '\n' body) sl = [] →
        parseCalloutFormat (splitOnChar '\n' body) sl = [] →
        parseFlashcardContent md body relPath deck baseTags vn vp sl =
          (parseHeadingFormat (splitOnChar '\n' body) sl).map
            (mkProcessedCard md relPath deck baseTags vn vp))) ∧
    parseSeparatorFormat (splitOnChar '\n' tripleDoc) 1 ≠ [] ∧
    parseCalloutFormat (splitOnChar '\n' tripleDoc) 1 ≠ [] ∧
    parseHeadingFormat (splitOnChar '\n' tripleDoc) 1 ≠ [] ∧
    (∀ (md : String → String) (relPath deck : String) (baseTags : List String)
        (vn vp : String),
      parseFlashcardContent md tripleDoc relPath deck baseTags vn vp 1 =
        (parseSeparatorFormat (splitOnChar '\n' tripleDoc) 1).map
          (mkProcessedCard md relPath deck baseTags vn vp)) := by
  have gen : ∀ (md : String → String) (body relPath deck : String)
      (baseTags : List String) (vn vp : String) (sl : Nat),
      (parseSeparatorFormat (splitOnChar '\n' body) sl ≠ [] →
        parseFlashcardContent md body relPath deck baseTags vn vp sl =
          (parseSeparatorFormat (splitOnChar '\n' body) sl).map
            (mkProcessedCard md relPath deck baseTags vn vp)) ∧
      (parseSeparatorFormat (splitOnChar '\n' body) sl = [] →
        parseCalloutFormat (splitOnChar '\n' body) sl ≠ [] →
        parseFlashcardContent md body relPath deck baseTags vn vp sl =
          (parseCalloutFormat (splitOnChar '\n' body) sl).map
            (mkProcessedCard md relPath deck baseTags vn vp)) ∧
      (parseSeparatorFormat (splitOnChar '\n' body) sl = [] →
        parseCalloutFormat (splitOnChar '\n' body) sl = [] →
        parseFlashcardContent md body relPath deck baseTags vn vp sl =
          (parseHeadingFormat (splitOnChar '\n' body) sl).map
            (mkProcessedCard md relPath deck baseTags vn vp)) := by
    intro md body relPath deck baseTags vn vp sl
    refine ⟨fun h1 => ?_, fun h1 h2 => ?_, fun h1 h2 => ?_⟩
    · have hE : (parseSeparatorFormat (splitOnChar '\n' body) sl).isEmpty = false := by
        simpa [List.isEmpty_iff] using h1
      simp [parseFlashcardContent, hE]
    · have hE : (parseCalloutFormat (splitOnChar '\n' body) sl).isEmpty = false := by
        simpa [List.isEmpty_iff] using h2
      simp [parseFlashcardContent, h1, hE]
    · simp [parseFlashcardContent, h1, h2]
  refine ⟨gen, by decide, by decide, by decide,
    fun md relPath deck baseTags vn vp =>
      (gen md tripleDoc relPath deck baseTags vn vp 1).1 (by decide)⟩

/-- C3 witness: the priority property applied to the triple-marker
document with the identity renderer. -/
theorem C3_strategyPriority_witness :
    parseFlashcardContent id tripleDoc "Flashcards/t.md" "Rina" [] "Vault" "/v" 1 =
      (parseSeparatorFormat (splitOnChar '\n' tripleDoc) 1).map
        (mkProcessedCard id "Flashcards/t.md" "Rina" [] "Vault" "/v") :=
  (C3_strategyPriority.1 id tripleDoc "Flashcards/t.md" "Rina" [] "Vault" "/v" 1).1 (by decide)

/-- Outcome folding adds to the created count exactly what it would add to
the zero result. -/
theorem applyOutcome_created (acc : SyncResult) (c : Flashcard) (o : CardOutcome) :
    (applyOutcome acc c o).created =
      acc.created + (applyOutcome emptySyncResult c o).created := by
  cases o <;> simp [applyOutcome, emptySyncResult]

/-- Outcome folding adds to the updated count exactly what it would add to
the zero result. -/
theorem applyOutcome_updated (acc : SyncResult) (c : Flashcard) (o : CardOutcome) :
    (applyOutcome acc c o).updated =
      acc.updated + (applyOutcome emptySyncResult c o).updated := by
  cases o <;> simp [applyOutcome, emptySyncResult]

/-- Outcome folding never touches the unchanged count. -/
theorem applyOutcome_unchanged (acc : SyncResult) (c : Flashcard) (o : CardOutcome) :
    (applyOutcome acc c o).unchanged = acc.unchanged := by
  cases o <;> simp [applyOutcome]

/-- Outcome folding appends to the error list exactly what it would record
into the zero result. -/
theorem applyOutcome_errors (acc : SyncResult) (c : Flashcard) (o : CardOutcome) :
    (applyOutcome acc c o).errors =
      acc.errors ++ (applyOutcome emptySyncResult c o).errors := by
  cases o <;> simp [applyOutcome, emptySyncResult]

/-- The per-card loop over a concatenation is the loop over the first part
followed by the loop over the second from the reached state and result. -/
theorem syncLoop_append {σ : Type} (r : RemoteBehavior σ) :
    ∀ (xs ys : List Flashcard) (s : σ) (acc : SyncResult),
      syncLoop r (xs ++ ys) s acc =
        ((syncLoop r ys (syncLoop r xs s acc).2.1 (syncLoop r xs s acc).1).1,
         (syncLoop r ys (syncLoop r xs s acc).2.1 (syncLoop r xs s acc).1).2.1,
         (syncLoop r xs s acc).2.2 ++
           (syncLoop r ys (syncLoop r xs s acc).2.1 (syncLoop r xs s acc).1).2.2) := by
  intro xs
  induction xs with
  | nil => intro ys s acc; simp [syncLoop]
  | cons c rest ih =>
    intro ys s acc
    simp only [List.cons_append, syncLoop]
    simp only [List.append_eq]
    simp only [ih]
    simp [List.append_assoc]

/-- The counts and errors of the per-card loop separate into the incoming
accumulator plus the loop's own contribution, and the store state does not
depend on the accumulator. -/
theorem syncLoop_acc {σ : Type} (r : RemoteBehavior σ) :
    ∀ (cards : List Flashcard) (s : σ) (acc : SyncResult),
      (syncLoop r cards s acc).1.created =
        acc.created + (syncLoop r cards s emptySyncResult).1.created ∧
      (syncLoop r cards s acc).1.updated =
        acc.updated + (syncLoop r cards s emptySyncResult).1.updated ∧
      (syncLoop r cards s acc).1.unchanged = acc.unchanged ∧
      (syncLoop r cards s acc).1.errors =
        acc.errors ++ (syncLoop r cards s emptySyncResult).1.errors ∧
      (syncLoop r cards s acc).2.1 = (syncLoop r cards s emptySyncResult).2.1 := by
  intro cards
  induction cards with
  | nil => intro s acc; simp [syncLoop, emptySyncResult]
  | cons c rest ih =>
    intro s acc
    simp only [syncLoop]
    obtain ⟨ih1, ih2, ih3, ih4, ih5⟩ :=
      ih (processCard r c s).2.1 (applyOutcome acc c (processCard r c s).1)
    obtain ⟨jh1, jh2, jh3, jh4, jh5⟩ :=
      ih (processCard r c s).2.1 (applyOutcome emptySyncResult c (processCard r c s).1)
    refine ⟨?_, ?_, ?_, ?_, ?_⟩
    · rw [ih1, jh1, applyOutcome_created]
      omega
    · rw [ih2, jh2, applyOutcome_updated]
      omega
    · rw [ih3, applyOutcome_unchanged]
    · rw [ih4, jh4, applyOutcome_errors]
      simp [List.append_assoc, emptySyncResult]
    · rw [ih5, jh5]

/-- Every card adds exactly one to created, updated or the error count,
unchanged never moves, and error identities come from the processed
cards. -/
theorem syncLoop_counts {σ : Type} (r : RemoteBehavior σ) :
    ∀ (cards : List Flashcard) (s : σ) (acc : SyncResult),
      ((syncLoop r cards s acc).1.created + (syncLoop r cards s acc).1.updated +
        (syncLoop r cards s acc).1.errors.length =
        acc.created + acc.updated + acc.errors.length + cards.length) ∧
      (syncLoop r cards s acc).1.unchanged = acc.unchanged ∧
      (∀ p ∈ (syncLoop r cards s acc).1.errors,
        p ∈ acc.errors ∨ p.1 ∈ cards.map (fun c => c.uid)) := by
  intro cards
  induction cards with
  | nil => intro s acc; simp [syncLoop]
  | cons c rest ih =>
    intro s acc
    simp only [syncLoop]
    obtain ⟨ih1, ih2, ih3⟩ :=
      ih (processCard r c s).2.1 (applyOutcome acc c (processCard r c s).1)
    refine ⟨?_, ?_, ?_⟩
    · rw [ih1]
      rcases ho : (processCard r c s).1 <;>
        simp [applyOutcome, ho, List.length_append] <;> omega
    · rw [ih2, applyOutcome_unchanged]
    · intro p hp
      rcases ih3 p hp with h1 | h1
      · rw [applyOutcome_errors] at h1
        rcases List.mem_append.mp h1 with h2 | h2
        · exact Or.inl h2
        · rcases ho : (processCard r c s).1 <;>
            rw [ho] at h2 <;> simp [applyOutcome, emptySyncResult] at h2
          subst h2
          simp
      · simp only [List.map_cons, List.mem_cons]
        exact Or.inr (Or.inr h1)

/-- C7: when the connectivity check reports the store unreachable the
whole (non-dry-run) sync returns the structured connection error and the
only remote operation ever invoked is the ping itself — neither the model
nor any deck, find, add, update or tag call is made, so the store's state
is exactly its post-ping state. -/
theorem C7_pingFailureAbortsBeforeMutation {σ : Type} (r : RemoteBehavior σ)
    (cards : List Flashcard) (s s1 : σ) (h : r.pingOk s = (false, s1)) :
    syncRemotePhase r cards s =
      (Except.error "Anki not connected", s1, [RemoteOp.ping]) := by
  unfold syncRemotePhase
  rw [h]

/-- C7 witness: the offline behaviour instantiates the ping failure. -/
theorem C7_pingFailureAbortsBeforeMutation_witness :
    syncRemotePhase offlineRemote [sampleCard "u1"] () =
      (Except.error "Anki not connected", (), [RemoteOp.ping]) :=
  C7_pingFailureAbortsBeforeMutation offlineRemote [sampleCard "u1"] () () rfl

/-- C8: when the remote processing of one card of a batch fails, that
card's identity and message are recorded in the error list between the
errors of the cards before and after it, and the created and updated
counts of the whole batch are exactly the sums of the counts the
surrounding sub-batches reach on their own — the failure never aborts the
batch. -/
theorem C8_partialFailureIsolation {σ : Type} (r : RemoteBehavior σ)
    (cs1 cs2 : List Flashcard) (c : Flashcard) (s : σ) (e : String)
    (hfail : (processCard r c (syncLoop r cs1 s emptySyncResult).2.1).1 =
      CardOutcome.failed e) :
    (syncLoop r (cs1 ++ c :: cs2) s emptySyncResult).1.errors =
      (syncLoop r cs1 s emptySyncResult).1.errors ++ (c.uid, e) ::
        (syncLoop r cs2
          (processCard r c (syncLoop r cs1 s emptySyncResult).2.1).2.1
          emptySyncResult).1.errors ∧
    (syncLoop r (cs1 ++ c :: cs2) s emptySyncResult).1.created =
      (syncLoop r cs1 s emptySyncResult).1.created +
        (syncLoop r cs2
          (processCard r c (syncLoop r cs1 s emptySyncResult).2.1).2.1
          emptySyncResult).1.created ∧
    (syncLoop r (cs1 ++ c :: cs2) s emptySyncResult).1.updated =
      (syncLoop r cs1 s emptySyncResult).1.updated +
        (syncLoop r cs2
          (processCard r c (syncLoop r cs1 s emptySyncResult).2.1).2.1
          emptySyncResult).1.updated ∧
    (c.uid, e) ∈ (syncLoop r (cs1 ++ c :: cs2) s emptySyncResult).1.errors := by
  have happ := syncLoop_append r cs1 (c :: cs2) s emptySyncResult
  rw [happ]
  simp only [syncLoop]
  rw [hfail]
  simp only [applyOutcome]
  obtain ⟨a1, a2, a3, a4, a5⟩ := syncLoop_acc r cs2
    (processCard r c (syncLoop r cs1 s emptySyncResult).2.1).2.1
    { (syncLoop r cs1 s emptySyncResult).1 with
      errors := (syncLoop r cs1 s emptySyncResult).1.errors ++ [(c.uid, e)] }
  rw [a1, a2, a4]
  simp [List.append_assoc]

/-- C8 witness: a three-card batch on the behaviour whose identity query
throws for the middle card — the failure is recorded and both neighbours
are still created. -/
theorem C8_partialFailureIsolation_witness :
    ((sampleCard "bad").uid, "boom") ∈
      (syncLoop failingRemote
        ([sampleCard "u1"] ++ sampleCard "bad" :: [sampleCard "u2"]) ()
        emptySyncResult).1.errors ∧
    (syncLoop failingRemote
        ([sampleCard "u1"] ++ sampleCard "bad" :: [sampleCard "u2"]) ()
        emptySyncResult).1.created =
      (syncLoop failingRemote [sampleCard "u1"] () emptySyncResult).1.created +
        (syncLoop failingRemote [sampleCard "u2"]
          (processCard failingRemote (sampleCard "bad")
            (syncLoop failingRemote [sampleCard "u1"] () emptySyncResult).2.1).2.1
          emptySyncResult).1.created :=
  ⟨(C8_partialFailureIsolation failingRemote [sampleCard "u1"] [sampleCard "u2"]
      (sampleCard "bad") () "boom" rfl).2.2.2,
   (C8_partialFailureIsolation failingRemote [sampleCard "u1"] [sampleCard "u2"]
      (sampleCard "bad") () "boom" rfl).2.1⟩

/-- C10: whenever syncCards returns a result, the created count plus the
updated count plus the number of error entries equals the number of input
cards, the unchanged count is zero, and every identity in the error list
is the identity of an input card — for every store behaviour. -/
theorem C10_everyCardClassifiedOnce {σ : Type} (r : RemoteBehavior σ)
    (cards : List Flashcard) (s : σ) (res : SyncResult) (s' : σ)
    (ops : List RemoteOp) (h : syncCards r cards s = (Except.ok res, s', ops)) :
    res.created + res.updated + res.errors.length = cards.length ∧
    res.unchanged = 0 ∧
    (∀ p ∈ res.errors, p.1 ∈ cards.map (fun c => c.uid)) := by
  unfold syncCards at h
  rcases hm : r.ensureModel s with ⟨em, s1⟩
  rw [hm] at h
  cases em with
  | error e => simp at h
  | ok u =>
    simp only at h
    cases hd : (ensureDecks r (dedupFirstGo [] (cards.map (fun c => c.deck))) s1).1 with
    | error e => rw [hd] at h; simp at h
    | ok v =>
      rw [hd] at h
      simp only [Prod.mk.injEq, Except.ok.injEq] at h
      obtain ⟨hres, -, -⟩ := h
      subst hres
      obtain ⟨k1, k2, k3⟩ := syncLoop_counts r cards
        (ensureDecks r (dedupFirstGo [] (cards.map (fun c => c.deck))) s1).2.1
        emptySyncResult
      refine ⟨?_, ?_, ?_⟩
      · simpa [emptySyncResult] using k1
      · simpa [emptySyncResult] using k2
      · intro p hp
        rcases k3 p hp with h1 | h1
        · simp [emptySyncResult] at h1
        · exact h1

/-- C10 witness: two fresh cards on the all-success behaviour — two
created, zero updated, zero unchanged, no errors. -/
theorem C10_everyCardClassifiedOnce_witness :
    twoCreatedResult.created + twoCreatedResult.updated +
      twoCreatedResult.errors.length =
      [sampleCard "u1", sampleCard "u2"].length ∧
    twoCreatedResult.unchanged = 0 :=
  ⟨(C10_everyCardClassifiedOnce okRemote [sampleCard "u1", sampleCard "u2"] ()
      twoCreatedResult ()
      [RemoteOp.ensureModel, RemoteOp.ensureDeck "D", RemoteOp.findNote "u1",
       RemoteOp.addNote "u1", RemoteOp.findNote "u2", RemoteOp.addNote "u2"]
      rfl).1,
   (C10_everyCardClassifiedOnce okRemote [sampleCard "u1", sampleCard "u2"] ()
      twoCreatedResult ()
      [RemoteOp.ensureModel, RemoteOp.ensureDeck "D", RemoteOp.findNote "u1",
       RemoteOp.addNote "u1", RemoteOp.findNote "u2", RemoteOp.addNote "u2"]
      rfl).2.1⟩

/-- Looking a key up in the overridden copy of the existing record gives
the existing hit with its value overridden by the new record. -/
theorem lookup_spread2_mapped (E N : RecordMap) (k : String) :
    List.lookup k (E.map (fun kv => (kv.1, (List.lookup kv.1 N).getD kv.2))) =
      (List.lookup k E).map (fun w => (List.lookup k N).getD w) := by
  induction E with
  | nil => simp
  | cons kv E' ih =>
    rcases kv with ⟨k0, v0⟩
    simp only [List.map_cons, List.lookup_cons]
    by_cases hk : (k == k0) = true
    · have hkk : k = k0 := eq_of_beq hk
      subst hkk
      simp
    · simp only [hk, Bool.false_eq_true, if_false, ih]

/-- Filtering the new record down to the keys absent from the existing one
does not change lookups of such keys. -/
theorem lookup_filter_notInExisting (E N : RecordMap) (k : String)
    (h : List.lookup k E = none) :
    List.lookup k (N.filter (fun kv => (List.lookup kv.1 E).isNone)) =
      List.lookup k N := by
  induction N with
  | nil => simp
  | cons kv N' ih =>
    rcases kv with ⟨k0, v0⟩
    by_cases hk : (k == k0) = true
    · have hkk : k = k0 := eq_of_beq hk
      subst hkk
      simp [List.filter_cons, h]
    · rcases hp : (List.lookup k0 E).isNone with _ | _
      · simp [List.filter_cons, hp, List.lookup_cons, hk, ih]
      · simp [List.filter_cons, hp, List.lookup_cons, hk, ih]

/-- Lookup in the spread record: the new record wins, the existing record
is the fallback. -/
theorem lookup_spread2 (E N : RecordMap) (k : String) :
    List.lookup k (spread2 E N) =
      match List.lookup k E with
      | some w => some ((List.lookup k N).getD w)
      | none => List.lookup k N := by
  unfold spread2
  rw [List.lookup_append, lookup_spread2_mapped]
  cases hE : List.lookup k E with
  | some w => simp
  | none => simp [lookup_filter_notInExisting E N k hE]

/-- On a record without duplicate keys the key list is just the first
projection. -/
theorem jsKeysGo_of_nodup :
    ∀ (m : RecordMap) (seen : List String),
      (m.map Prod.fst).Nodup → (∀ k ∈ m.map Prod.fst, k ∉ seen) →
      jsKeysGo seen m = m.map Prod.fst := by
  intro m
  induction m with
  | nil => intro seen h1 h2; simp [jsKeysGo]
  | cons kv m' ih =>
    intro seen hnd hdis
    simp only [jsKeysGo]
    have h1 : kv.1 ∉ seen := hdis kv.1 (by simp)
    rw [if_neg h1]
    simp only [List.map_cons] at hnd
    have hnd' := List.nodup_cons.mp hnd
    rw [List.map_cons]
    congr 1
    refine ih (kv.1 :: seen) hnd'.2 ?_
    intro k hk hmem
    rcases List.mem_cons.mp hmem with h2 | h2
    · exact hnd'.1 (h2 ▸ hk)
    · exact hdis k (List.mem_cons_of_mem _ hk) h2

/-- A key occurs in the first projections exactly when its lookup hits. -/
theorem mem_keys_iff_lookup (E : RecordMap) (k : String) :
    k ∈ E.map Prod.fst ↔ (List.lookup k E).isSome := by
  rw [List.lookup_isSome_iff]
  constructor
  · intro h
    rcases List.mem_map.mp h with ⟨p, hp, hpk⟩
    exact ⟨p, hp, by simp [hpk]⟩
  · rintro ⟨p, hp, hpk⟩
    exact List.mem_map.mpr ⟨p, hp, (eq_of_beq hpk).symm⟩

/-- The spread of two duplicate-free records is duplicate-free. -/
theorem spread2_keys_nodup (E N : RecordMap)
    (hE : (E.map Prod.fst).Nodup) (hN : (N.map Prod.fst).Nodup) :
    ((spread2 E N).map Prod.fst).Nodup := by
  unfold spread2
  rw [List.map_append]
  have h1 : (E.map (fun kv => (kv.1, (List.lookup kv.1 N).getD kv.2))).map Prod.fst =
      E.map Prod.fst := by
    rw [List.map_map]
    rfl
  rw [h1]
  refine List.Nodup.append hE ?_ ?_
  · exact List.Nodup.sublist (List.Sublist.map _ (List.filter_sublist _)) hN
  · intro k hkE hkF
    rcases List.mem_map.mp hkF with ⟨p, hp, hpk⟩
    have hpf := List.of_mem_filter hp
    rw [hpk] at hpf
    rw [mem_keys_iff_lookup] at hkE
    rw [Option.isNone_iff_eq_none] at hpf
    rw [hpf] at hkE
    simp at hkE

/-- C9: the merged mapping holds a key exactly when the existing state or
the new map holds it, a key of the new map takes the new value, a key only
of the existing state keeps its old value, and the recorded card count is
the number of keys of the merged mapping (equivalently, its size, the
records being duplicate-free). -/
theorem C9_mergePreservesAndOverrides (existing : Option AnkiSyncState)
    (newIds : RecordMap) (now : String)
    (hE : ((existingIds existing).map Prod.fst).Nodup)
    (hN : (newIds.map Prod.fst).Nodup) :
    (∀ k : String,
      (List.lookup k (mergeSyncState existing newIds now).note_ids).isSome ↔
        ((List.lookup k (existingIds existing)).isSome ∨
          (List.lookup k newIds).isSome)) ∧
    (∀ (k : String) (v : Nat), List.lookup k newIds = some v →
      List.lookup k (mergeSyncState existing newIds now).note_ids = some v) ∧
    (∀ (k : String) (v : Nat), List.lookup k newIds = none →
      List.lookup k (existingIds existing) = some v →
      List.lookup k (mergeSyncState existing newIds now).note_ids = some v) ∧
    (mergeSyncState existing newIds now).card_count =
      (jsKeys (mergeSyncState existing newIds now).note_ids).length ∧
    (mergeSyncState existing newIds now).card_count =
      (mergeSyncState existing newIds now).note_ids.length := by
  have hnotes : (mergeSyncState existing newIds now).note_ids =
      spread2 (existingIds existing) newIds := rfl
  refine ⟨?_, ?_, ?_, rfl, ?_⟩
  · intro k
    rw [hnotes, lookup_spread2]
    cases hEk : List.lookup k (existingIds existing) with
    | some w => simp
    | none => simp
  · intro k v hv
    rw [hnotes, lookup_spread2]
    cases hEk : List.lookup k (existingIds existing) with
    | some w => simp [hv]
    | none => simp [hv]
  · intro k v hvN hvE
    rw [hnotes, lookup_spread2, hvE, hvN]
    rfl
  · have hcc : (mergeSyncState existing newIds now).card_count =
        (jsKeys (spread2 (existingIds existing) newIds)).length := rfl
    rw [hcc, hnotes]
    unfold jsKeys
    rw [jsKeysGo_of_nodup (spread2 (existingIds existing) newIds) []
      (spread2_keys_nodup _ _ hE hN) (by simp)]
    simp

/-- C9 witness: merging the map of keys b and c into an existing state of
keys a and b — b takes the new handle, a keeps its old one, and the count
is the size of the three-key merged mapping. -/
theorem C9_mergePreservesAndOverrides_witness :
    List.lookup "b" (mergeSyncState
      (some { note_ids := [("a", 1), ("b", 2)], last_synced := "t0", card_count := 2 })
      [("b", 9), ("c", 3)] "t1").note_ids = some 9 ∧
    List.lookup "a" (mergeSyncState
      (some { note_ids := [("a", 1), ("b", 2)], last_synced := "t0", card_count := 2 })
      [("b", 9), ("c", 3)] "t1").note_ids = some 1 ∧
    (mergeSyncState
      (some { note_ids := [("a", 1), ("b", 2)], last_synced := "t0", card_count := 2 })
      [("b", 9), ("c", 3)] "t1").card_count =
    (mergeSyncState
      (some { note_ids := [("a", 1), ("b", 2)], last_synced := "t0", card_count := 2 })
      [("b", 9), ("c", 3)] "t1").note_ids.length := by
  have H := C9_mergePreservesAndOverrides
    (some { note_ids := [("a", 1), ("b", 2)], last_synced := "t0", card_count := 2 })
    [("b", 9), ("c", 3)] "t1" (by decide) (by decide)
  exact ⟨H.2.1 "b" 9 (by decide), H.2.2.1 "a" 1 (by decide) (by decide), H.2.2.2.2⟩

theorem char_toNat_ofNat_valid (m : Nat) (h : m.isValidChar) :
    (Char.ofNat m).toNat = m := by
  unfold Char.ofNat
  rw [dif_pos h]
  rfl

theorem jsToLower_toUpper (c : Char) :
    jsToLowerChar (jsToUpperChar c) = jsToLowerChar c := by
  unfold jsToUpperChar
  by_cases h : 97 ≤ c.toNat ∧ c.toNat ≤ 122
  · rw [if_pos h]
    have hv : (c.toNat - 32).isValidChar := Or.inl (by omega)
    have ht : (Char.ofNat (c.toNat - 32)).toNat = c.toNat - 32 :=
      char_toNat_ofNat_valid _ hv
    unfold jsToLowerChar
    rw [ht, if_pos (by omega), if_neg (by omega)]
    have : c.toNat - 32 + 32 = c.toNat := by omega
    rw [this, Char.ofNat_toNat]
  · rw [if_neg h]

theorem dropWhile_flatMap_crlf (l : List Char) :
    (l.flatMap toCRLFChar).dropWhile jsWs = (l.dropWhile jsWs).flatMap toCRLFChar := by
  induction l with
  | nil => simp
  | cons c cs ih =>
    by_cases hw : jsWs c
    · by_cases hn : c = '\n'
      · subst hn
        simp only [List.flatMap_cons, toCRLFChar, if_pos rfl, List.dropWhile_cons]
        simp [jsWs, ih]
      · simp only [List.flatMap_cons, toCRLFChar, if_neg hn, List.dropWhile_cons]
        simp [hw, ih]
    · have hn : c ≠ '\n' := by
        intro hc; subst hc; simp [jsWs] at hw
      simp only [List.flatMap_cons, toCRLFChar, if_neg hn, List.dropWhile_cons]
      simp [hw, toCRLFChar, hn]

theorem dropWhile_flatMap_crlfRev (l : List Char) :
    (l.flatMap crlfRevChar).dropWhile jsWs = (l.dropWhile jsWs).flatMap crlfRevChar := by
  induction l with
  | nil => simp
  | cons c cs ih =>
    by_cases hw : jsWs c
    · by_cases hn : c = '\n'
      · subst hn
        simp only [List.flatMap_cons, crlfRevChar, if_pos rfl, List.dropWhile_cons]
        simp [jsWs, ih]
      · simp only [List.flatMap_cons, crlfRevChar, if_neg hn, List.dropWhile_cons]
        simp [hw, ih]
    · have hn : c ≠ '\n' := by
        intro hc; subst hc; simp [jsWs] at hw
      simp only [List.flatMap_cons, crlfRevChar, if_neg hn, List.dropWhile_cons]
      simp [hw, crlfRevChar, hn]

theorem reverse_flatMap_crlf (l : List Char) :
    (l.flatMap toCRLFChar).reverse = l.reverse.flatMap crlfRevChar := by
  induction l with
  | nil => simp
  | cons c cs ih =>
    simp only [List.flatMap_cons, List.reverse_append, List.reverse_cons, ih,
      List.flatMap_append]
    congr 1
    by_cases hn : c = '\n' <;> simp [toCRLFChar, crlfRevChar, hn]

theorem reverse_flatMap_crlfRev (l : List Char) :
    (l.flatMap crlfRevChar).reverse = l.reverse.flatMap toCRLFChar := by
  induction l with
  | nil => simp
  | cons c cs ih =>
    simp only [List.flatMap_cons, List.reverse_append, List.reverse_cons, ih,
      List.flatMap_append]
    congr 1
    by_cases hn : c = '\n' <;> simp [toCRLFChar, crlfRevChar, hn]

theorem jsTrimChars_flatMap_crlf (l : List Char) :
    jsTrimChars (l.flatMap toCRLFChar) = (jsTrimChars l).flatMap toCRLFChar := by
  unfold jsTrimChars
  rw [dropWhile_flatMap_crlf, reverse_flatMap_crlf, dropWhile_flatMap_crlfRev,
    reverse_flatMap_crlfRev]

theorem jsTrimChars_subset (l : List Char) : jsTrimChars l ⊆ l := by
  intro c hc
  unfold jsTrimChars at hc
  rw [List.mem_reverse] at hc
  have h1 := (List.dropWhile_sublist (l := ((l.dropWhile jsWs).reverse)) jsWs).subset hc
  rw [List.mem_reverse] at h1
  exact (List.dropWhile_sublist jsWs).subset h1

theorem crlfToNl_cons_ne (c : Char) (cs : List Char) (h : c ≠ '\r') :
    crlfToNl (c :: cs) = c :: crlfToNl cs := by
  rw [crlfToNl.eq_def]
  split
  · simp_all
  · rename_i heq
    exact absurd (List.cons_eq_cons.mp heq).1 h
  · rename_i c2 rest heq
    obtain ⟨h1, h2⟩ := List.cons_eq_cons.mp heq
    subst h1
    subst h2
    rfl

theorem crlfToNl_of_noCR (l : List Char) (h : '\r' ∉ l) : crlfToNl l = l := by
  induction l with
  | nil => rfl
  | cons c cs ih =>
    have hc : c ≠ '\r' := by
      intro hc; exact h (hc ▸ List.mem_cons_self c cs)
    rw [crlfToNl_cons_ne c cs hc, ih (fun hm => h (List.mem_cons_of_mem c hm))]

theorem crlfToNl_flatMap_of_noCR (l : List Char) (h : '\r' ∉ l) :
    crlfToNl (l.flatMap toCRLFChar) = l := by
  induction l with
  | nil => rfl
  | cons c cs ih =>
    have hcs : '\r' ∉ cs := fun hm => h (List.mem_cons_of_mem c hm)
    by_cases hn : c = '\n'
    · subst hn
      simp only [List.flatMap_cons, toCRLFChar, if_pos rfl]
      show crlfToNl ('\r' :: '\n' :: cs.flatMap toCRLFChar) = '\n' :: cs
      have hstep : crlfToNl ('\r' :: '\n' :: cs.flatMap toCRLFChar) =
          '\n' :: crlfToNl (cs.flatMap toCRLFChar) := rfl
      rw [hstep, ih hcs]
    · have hc : c ≠ '\r' := by
        intro hc; exact h (hc ▸ List.mem_cons_self c cs)
      simp only [List.flatMap_cons, toCRLFChar, if_neg hn, List.singleton_append]
      rw [crlfToNl_cons_ne _ _ hc, ih hcs]

theorem crToNl_of_noCR (l : List Char) (h : '\r' ∉ l) : crToNl l = l := by
  induction l with
  | nil => rfl
  | cons c cs ih =>
    have hc : c ≠ '\r' := by
      intro hc; exact h (hc ▸ List.mem_cons_self c cs)
    unfold crToNl
    rw [List.map_cons, if_neg hc]
    exact congrArg _ (ih (fun hm => h (List.mem_cons_of_mem c hm)))

theorem normalizeContent_toCRLF (s : String) (h : '\r' ∉ s.data) :
    normalizeContent (toCRLF s) = normalizeContent s := by
  unfold normalizeContent toCRLF
  have hdata : (⟨s.data.flatMap toCRLFChar⟩ : String).data = s.data.flatMap toCRLFChar := rfl
  rw [hdata, jsTrimChars_flatMap_crlf]
  have htrim : '\r' ∉ jsTrimChars s.data := fun hm => h (jsTrimChars_subset _ hm)
  rw [crlfToNl_flatMap_of_noCR _ htrim, crlfToNl_of_noCR _ htrim]

theorem normalizeContent_trailingSpaces (s : String) :
    normalizeContent (s ++ "  ") = normalizeContent s := by
  unfold normalizeContent
  have h1 : (s ++ "  ").data = (s.data ++ [' ']) ++ [' '] := by simp
  rw [h1, jsTrimChars_append_ws ' ' (by decide), jsTrimChars_append_ws ' ' (by decide)]

theorem normalizePathForUid_upper (p : String) :
    normalizePathForUid (jsToUpper p) = normalizePathForUid p := by
  unfold normalizePathForUid jsToUpper
  have h1 : ((⟨p.data.map jsToUpperChar⟩ : String)).data = p.data.map jsToUpperChar := rfl
  rw [h1]
  simp only [List.map_map]
  congr 1
  refine List.map_congr_left ?_
  intro c _
  simp only [Function.comp_apply, jsToLower_toUpper]

theorem normalizePathForUid_backslash (p : String) :
    normalizePathForUid (slashToBackslash p) = normalizePathForUid p := by
  unfold normalizePathForUid slashToBackslash
  have h1 : ((⟨p.data.map (fun c => if c = '/' then '\\' else c)⟩ : String)).data =
      p.data.map (fun c => if c = '/' then '\\' else c) := rfl
  rw [h1]
  simp only [List.map_map]
  congr 1
  refine List.map_congr_left ?_
  intro c _
  simp only [Function.comp_apply]
  by_cases hc : c = '/'
  · subst hc
    decide
  · rw [if_neg hc]

/-- C4 (counterexample): the three normalized fields are joined with a
separator that can itself occur in content, so moving a separator-shaped
piece between front and back gives the hash the identical input string:
two cards whose fronts (and backs) differ meaningfully share the same
identity. -/
theorem C4_uidCollision_separatorAmbiguity :
    generateUid "a::b" "c" "p.md" = generateUid "a" "b::c" "p.md" ∧
    normalizeContent "a::b" ≠ normalizeContent "a" ∧
    normalizeContent "c" ≠ normalizeContent "b::c" := by
  refine ⟨?_, by decide, by decide⟩
  unfold generateUid
  exact congrArg uidOfInput (by decide)

/-- C4 (amended): the identity is deterministic, invariant under trailing
spaces on front or back, under the CRLF line-ending style (for
carriage-return-free text), and under the path's letter casing and slash
style; it is a function of the separator-joined normalized fields alone,
so meaningfully different contents that join to the same string collide,
while representative meaningful changes of front, back or path do change
the identity. -/
theorem C4_amended_identityInvariance :
    (∀ f b p : String, generateUid f b p = generateUid f b p) ∧
    (∀ f b p : String, generateUid (f ++ "  ") b p = generateUid f b p) ∧
    (∀ f b p : String, generateUid f (b ++ "  ") p = generateUid f b p) ∧
    (∀ f b p : String, '\r' ∉ f.data →
      generateUid (toCRLF f) b p = generateUid f b p) ∧
    (∀ f b p : String, '\r' ∉ b.data →
      generateUid f (toCRLF b) p = generateUid f b p) ∧
    (∀ f b p : String, generateUid f b (jsToUpper p) = generateUid f b p) ∧
    (∀ f b p : String, generateUid f b (slashToBackslash p) = generateUid f b p) ∧
    (∀ f1 b1 p1 f2 b2 p2 : String, mkUidInput f1 b1 p1 = mkUidInput f2 b2 p2 →
      generateUid f1 b1 p1 = generateUid f2 b2 p2) ∧
    generateUid "Q1" "A" "p.md" ≠ generateUid "Q2" "A" "p.md" ∧
    generateUid "Q" "A1" "p.md" ≠ generateUid "Q" "A2" "p.md" ∧
    generateUid "Q" "A" "x.md" ≠ generateUid "Q" "A" "y.md" := by
  refine ⟨fun f b p => rfl, ?_, ?_, ?_, ?_, ?_, ?_, ?_, by decide, by decide, by decide⟩
  · intro f b p
    unfold generateUid mkUidInput
    rw [normalizeContent_trailingSpaces]
  · intro f b p
    unfold generateUid mkUidInput
    rw [normalizeContent_trailingSpaces]
  · intro f b p h
    unfold generateUid mkUidInput
    rw [normalizeContent_toCRLF f h]
  · intro f b p h
    unfold generateUid mkUidInput
    rw [normalizeContent_toCRLF b h]
  · intro f b p
    unfold generateUid mkUidInput
    rw [normalizePathForUid_upper]
  · intro f b p
    unfold generateUid mkUidInput
    rw [normalizePathForUid_backslash]
  · intro f1 b1 p1 f2 b2 p2 h
    unfold generateUid
    exact congrArg uidOfInput h

/-- C4 witness: the CRLF invariance at a concrete two-line front and the
collision conjunct at the concrete ambiguous pair. -/
theorem C4_amended_identityInvariance_witness :
    generateUid (toCRLF "L1\nL2") "A" "p.md" = generateUid "L1\nL2" "A" "p.md" ∧
    generateUid "a::b" "c" "p.md" = generateUid "a" "b::c" "p.md" :=
  ⟨C4_amended_identityInvariance.2.2.2.1 "L1\nL2" "A" "p.md" (by decide),
   C4_amended_identityInvariance.2.2.2.2.2.2.2.1 "a::b" "c" "p.md" "a" "b::c" "p.md" (by decide)⟩
